import Mathlib

/-!
Verification of the calibration-frame organizer
(`ap_move_master_to_library/move_calibration.py`).

The Python module is shallowly embedded: metadata dictionaries become
association lists from property names to optional scalar values (a key bound
to `none` models a key stored with Python `None`), Python exceptions become an
explicit `PyErr` error type threaded through `Except`, and the external
collaborators (metadata source, filesystem existence, copy capability) become
an explicit environment record.  `os.path` helpers (`join`, `normpath`,
`splitext`) are translated from their CPython `posixpath` definitions.
-/

namespace MoveCalibration

/-- Scalar metadata values: strings and integers (the value kinds the program
stores in metadata records). -/
inductive Scalar where
  | str (s : String) : Scalar
  | int (n : Int) : Scalar
deriving DecidableEq, Repr

/-- Python `str(v)` / f-string rendering of a scalar. -/
def Scalar.render : Scalar → String
  | .str s => s
  | .int n => toString n

/-- Python f-string rendering of a possibly-`None` value. -/
def pyRender : Option Scalar → String
  | none => "None"
  | some v => v.render

/-- A metadata record: an association list from property name to value, where
a key bound to `none` models a key present with Python `None`, and an absent
key models a missing dictionary entry.  List order models dict iteration
order; lookups use the first occurrence. -/
abbrev Datum := List (String × Option Scalar)

/-- Dictionary lookup: `some v` when the key is present (with stored value
`v`, possibly `none` for Python `None`), `none` when the key is absent. -/
def Datum.getD : Datum → String → Option (Option Scalar)
  | [], _ => none
  | (k2, v) :: rest, k => if k2 = k then some v else Datum.getD rest k

/-- Python `key in datum`. -/
def Datum.hasKey (d : Datum) (k : String) : Bool :=
  (d.getD k).isSome

/-- Replace the value stored at the first occurrence of a key (used to state
that results do not depend on a particular property value). -/
def Datum.setVal : Datum → String → Option Scalar → Datum
  | [], _, _ => []
  | (k2, v) :: rest, k, w => if k2 = k then (k2, w) :: rest else (k2, v) :: Datum.setVal rest k w

/-- Remove every binding of a key (models deleting a dict entry). -/
def Datum.eraseKey : Datum → String → Datum
  | [], _ => []
  | (k2, v) :: rest, k =>
    if k2 = k then Datum.eraseKey rest k else (k2, v) :: Datum.eraseKey rest k

/-- Python exceptions that the embedded code can raise. -/
inductive PyErr where
  | valueError (msg : String) : PyErr
  | keyError (key : String) : PyErr
  | typeError (msg : String) : PyErr
  | fileExistsError (existing : List String) : PyErr
deriving DecidableEq, Repr

/-- Decidable equality of embedded results, used to evaluate the embedding
at concrete inputs. -/
instance {α : Type} [DecidableEq α] : DecidableEq (Except PyErr α) :=
  fun a b =>
    match a, b with
    | .ok x, .ok y =>
      match decEq x y with
      | isTrue h => isTrue (by rw [h])
      | isFalse h => isFalse (by intro hc; cases hc; exact h rfl)
    | .error x, .error y =>
      match decEq x y with
      | isTrue h => isTrue (by rw [h])
      | isFalse h => isFalse (by intro hc; cases hc; exact h rfl)
    | .ok _, .error _ => isFalse (by intro hc; cases hc)
    | .error _, .ok _ => isFalse (by intro hc; cases hc)

/-- An `os.path.join` argument must be a `str`; anything else raises
`TypeError` in Python 3. -/
def asPathStr : Option Scalar → Except PyErr String
  | some (.str s) => .ok s
  | some (.int _) => .error (.typeError "join argument must be str, not int")
  | none => .error (.typeError "join argument must be str, not NoneType")

/-- Reduction-friendly test that a string starts with a given character. -/
def strStartsChar (s : String) (c : Char) : Bool :=
  match s.toList with
  | [] => false
  | x :: _ => x = c

/-- Reduction-friendly test that a string ends with a given character. -/
def strEndsChar (s : String) (c : Char) : Bool :=
  match s.toList.reverse with
  | [] => false
  | x :: _ => x = c

/-- CPython `posixpath.join(a, *ps)`. -/
def os_path_join (a : String) (ps : List String) : String :=
  ps.foldl
    (fun path b =>
      if strStartsChar b '/' then b
      else if path = "" ∨ strEndsChar path '/' then path ++ b
      else path ++ "/" ++ b)
    a

/-- Component loop of CPython `posixpath.normpath`: drops empty and dot
components and resolves `..` against the accumulated stack. -/
def normLoop (initSlashes : Nat) : List String → List String → List String
  | acc, [] => acc.reverse
  | acc, c :: rest =>
    if c = "" ∨ c = "." then normLoop initSlashes acc rest
    else if c ≠ ".." ∨ (initSlashes = 0 ∧ acc = []) ∨ acc.head? = some ".." then
      normLoop initSlashes (c :: acc) rest
    else
      match acc with
      | [] => normLoop initSlashes [] rest
      | _ :: accRest => normLoop initSlashes accRest rest

/-- Splitting a character list on a separator character (CPython
`str.split` with a one-character separator, over the code points). -/
def splitOnCharAux (c : Char) : List Char → List (List Char)
  | [] => [[]]
  | x :: xs =>
    match splitOnCharAux c xs with
    | [] => [[x]]
    | w :: ws => if x = c then [] :: w :: ws else (x :: w) :: ws

/-- CPython `str.split(sep)` for a one-character separator. -/
def pySplitChar (s : String) (c : Char) : List String :=
  (splitOnCharAux c s.toList).map String.mk

/-- Joining a list of strings with a separator (CPython `sep.join`). -/
def interleave (sep : String) : List String → String
  | [] => ""
  | [x] => x
  | x :: y :: xs => x ++ sep ++ interleave sep (y :: xs)

/-- CPython `posixpath.normpath`. -/
def pyNormpath (path : String) : String :=
  if path = "" then "."
  else
    let initSlashes : Nat :=
      match path.toList with
      | '/' :: '/' :: '/' :: _ => 1
      | '/' :: '/' :: _ => 2
      | '/' :: _ => 1
      | _ => 0
    let comps := normLoop initSlashes [] (pySplitChar path '/')
    let joined := String.join (List.replicate initSlashes "/") ++ interleave "/" comps
    if joined = "" then "." else joined

/-- Index of the last occurrence of a character, accumulator form. -/
def lastIdxAux (c : Char) : List Char → Nat → Option Nat → Option Nat
  | [], _, best => best
  | x :: xs, i, best => lastIdxAux c xs (i + 1) (if x = c then some i else best)

/-- Extension part of CPython `posixpath.splitext`: everything from the last
dot of the basename, unless the basename consists only of leading dots up to
that point. -/
def splitextExt (p : String) : String :=
  let l := p.toList
  match lastIdxAux '.' l 0 none with
  | none => ""
  | some d =>
    let start : Nat :=
      match lastIdxAux '/' l 0 none with
      | none => 0
      | some si => si + 1
    let afterSep : Bool :=
      match lastIdxAux '/' l 0 none with
      | none => true
      | some si => decide (si < d)
    if afterSep ∧ (List.range (d - start)).any (fun j => l.get? (start + j) ≠ some '.') then
      String.mk (l.drop d)
    else ""

/-- CPython `str.lower` over the code points. -/
def lowerStr (s : String) : String :=
  String.mk (s.toList.map Char.toLower)

/-- CPython `str.upper` over the code points. -/
def upperStr (s : String) : String :=
  String.mk (s.toList.map Char.toUpper)

/-- Modelled from the spec: `ap_common.utils.camelCase` is not in the sources;
section 4.1 specifies a lower-camel-case rendering of a space-separated label,
with the example MASTER BIAS to masterBias.  Capitalization of one word. -/
def capWord (w : String) : String :=
  match w.toList with
  | [] => ""
  | c :: cs => String.mk (c.toUpper :: cs.map Char.toLower)

/-- Modelled from the spec: `ap_common.utils.camelCase`; the first word is
lowered, every later word is capitalized, and the words are concatenated. -/
def camelCase (s : String) : String :=
  match pySplitChar s ' ' with
  | [] => ""
  | w :: ws => lowerStr w ++ String.join (ws.map capWord)

/-- Modelled from the spec: `ap_common.normalization.denormalize_header`
(section 6) maps a canonical metadata key to an upper-case display label and
returns none for unknown keys.  The only mapping the repository exercises is
the exposure-time label; every other key falls back to the upper-cased raw
key. -/
def denormalize_header (key : String) : Option String :=
  if key = "exposureseconds" then some "EXPTIME" else none

/-- Modelled from the spec: the `config` module of this package is not in the
sources.  Frame-type labels follow the camelCase example of section 4.1 and
the test suite (MASTER BIAS, MASTER DARK, MASTER FLAT). -/
def TYPE_MASTER_BIAS : String := "MASTER BIAS"

/-- Modelled from the spec: `config.TYPE_MASTER_DARK`. -/
def TYPE_MASTER_DARK : String := "MASTER DARK"

/-- Modelled from the spec: `config.TYPE_MASTER_FLAT`. -/
def TYPE_MASTER_FLAT : String := "MASTER FLAT"

/-- Modelled from the spec: `config.MASTER_CALIBRATION_TYPES`, the fixed
enumeration order bias, dark, flat of section 4.2. -/
def MASTER_CALIBRATION_TYPES : List String :=
  [TYPE_MASTER_BIAS, TYPE_MASTER_DARK, TYPE_MASTER_FLAT]

/-- Modelled from the spec: `config.NORMALIZED_HEADER_CAMERA`. -/
def NORMALIZED_HEADER_CAMERA : String := "camera"

/-- Modelled from the spec: `config.NORMALIZED_HEADER_DATE`. -/
def NORMALIZED_HEADER_DATE : String := "date"

/-- Modelled from the spec: `config.NORMALIZED_HEADER_OPTIC`. -/
def NORMALIZED_HEADER_OPTIC : String := "optic"

/-- Lookup in a static string-keyed table (Python dict of lists). -/
def lookupList (l : List (String × List String)) (t : String) : Option (List String) :=
  (l.find? (fun p => p.1 = t)).map Prod.snd

/-- Modelled from the spec: `config.REQUIRED_PROPERTIES`, the per-frame-type
list of required properties (section 3).  The test suite fixes camera as
required for bias and date as required for flat; the flat directory shape of
section 4.1 needs camera and date. -/
def REQUIRED_PROPERTIES : List (String × List String) :=
  [(TYPE_MASTER_BIAS, [NORMALIZED_HEADER_CAMERA]),
   (TYPE_MASTER_DARK, [NORMALIZED_HEADER_CAMERA]),
   (TYPE_MASTER_FLAT, [NORMALIZED_HEADER_CAMERA, NORMALIZED_HEADER_DATE])]

/-- Modelled from the spec: `config.FILENAME_PROPERTIES`, the per-frame-type
ordered list of optional filename properties (sections 3 and 4.1).  The test
suite fixes gain before offset for bias, exposure time first for dark, and
the flat example of section 8 names filter first. -/
def FILENAME_PROPERTIES : List (String × List String) :=
  [(TYPE_MASTER_BIAS, ["gain", "offset", "settemp", "readoutmode"]),
   (TYPE_MASTER_DARK, ["exposureseconds", "gain", "offset", "settemp", "readoutmode"]),
   (TYPE_MASTER_FLAT, ["filter", "gain", "offset", "settemp", "readoutmode"])]

/-- Display label used in a filename segment: the denormalized label, falling
back to the upper-cased raw key (lines 44 to 46 of the source). -/
def displayKey (key : String) : String :=
  match denormalize_header key with
  | some p => p
  | none => upperStr key

/-- Filename segment contributed by one configured property: present and
non-null values contribute an underscore-separated display-key and value pair,
anything else contributes nothing (lines 42 to 47 of the source). -/
def segFor (datum : Datum) (key : String) : String :=
  match datum.getD key with
  | some (some v) => "_" ++ displayKey key ++ "_" ++ v.render
  | _ => ""

/-- Accumulating loop of `_build_filename` over the configured property
list. -/
def fnameFold (datum : Datum) : List String → String → String
  | [], acc => acc
  | key :: rest, acc => fnameFold datum rest (acc ++ segFor datum key)

/-- Embedding of `_build_filename` (lines 27 to 50): camelCase type prefix,
then one segment per configured property, then the extension.  A missing
`type` key raises `KeyError`; an unknown string type raises `KeyError` from
the `FILENAME_PROPERTIES` dict lookup. -/
def _build_filename (datum : Datum) (file_extension : String) : Except PyErr String :=
  match datum.getD "type" with
  | none => .error (.keyError "type")
  | some (some (.str t)) =>
    match lookupList FILENAME_PROPERTIES t with
    | none => .error (.keyError t)
    | some props => .ok (fnameFold datum props (camelCase t) ++ file_extension)
  | some _ => .error (.typeError "camelCase expects a str")

/-- Embedding of `_build_bias_path` (lines 53 to 67): joins the destination
root, the type label, the camera and the filename; dict accesses are
evaluated left to right and raise `KeyError` when absent, and non-string
values fail at the join. -/
def _build_bias_path (datum : Datum) (dest_dir : String) (filename : String) :
    Except PyErr String :=
  match datum.getD "type" with
  | none => .error (.keyError "type")
  | some tV =>
    match datum.getD NORMALIZED_HEADER_CAMERA with
    | none => .error (.keyError NORMALIZED_HEADER_CAMERA)
    | some cV =>
      match asPathStr tV with
      | .error e => .error e
      | .ok t =>
        match asPathStr cV with
        | .error e => .error e
        | .ok c => .ok (os_path_join dest_dir [t, c, filename])

/-- Embedding of `_build_dark_path` (lines 70 to 84); its body is the same as
the bias builder. -/
def _build_dark_path (datum : Datum) (dest_dir : String) (filename : String) :
    Except PyErr String :=
  match datum.getD "type" with
  | none => .error (.keyError "type")
  | some tV =>
    match datum.getD NORMALIZED_HEADER_CAMERA with
    | none => .error (.keyError NORMALIZED_HEADER_CAMERA)
    | some cV =>
      match asPathStr tV with
      | .error e => .error e
      | .ok t =>
        match asPathStr cV with
        | .error e => .error e
        | .ok c => .ok (os_path_join dest_dir [t, c, filename])

/-- Optic directory segment of `_build_flat_path` (lines 102 to 107): present
exactly when the optic key is present, non-null and of positive length; `len`
of an integer raises `TypeError`. -/
def opticPart (datum : Datum) : Except PyErr (List String) :=
  match datum.getD NORMALIZED_HEADER_OPTIC with
  | some (some (.str s)) => if s.length > 0 then .ok [s] else .ok []
  | some (some (.int _)) => .error (.typeError "object of type int has no len")
  | some none => .ok []
  | none => .ok []

/-- Embedding of `_build_flat_path` (lines 87 to 111): the date subdirectory
is an f-string (so any value renders), then root, type, camera, the optional
optic segment, the date segment and the filename are joined. -/
def _build_flat_path (datum : Datum) (dest_dir : String) (filename : String) :
    Except PyErr String :=
  match datum.getD NORMALIZED_HEADER_DATE with
  | none => .error (.keyError NORMALIZED_HEADER_DATE)
  | some dateV =>
    match datum.getD "type" with
    | none => .error (.keyError "type")
    | some tV =>
      match datum.getD NORMALIZED_HEADER_CAMERA with
      | none => .error (.keyError NORMALIZED_HEADER_CAMERA)
      | some cV =>
        match opticPart datum with
        | .error e => .error e
        | .ok optic =>
          match asPathStr tV with
          | .error e => .error e
          | .ok t =>
            match asPathStr cV with
            | .error e => .error e
            | .ok c =>
              .ok (os_path_join dest_dir
                ([t, c] ++ optic ++ ["DATE_" ++ pyRender dateV, filename]))

/-- Frame-type validation of `build_destination_path` (lines 136 to 140): the
stored type value is a known frame type when it is a string key of
`REQUIRED_PROPERTIES`; the result carries that key and its required
properties. -/
def typeLookup : Option Scalar → Option (String × List String)
  | some (.str t) =>
    match lookupList REQUIRED_PROPERTIES t with
    | some reqs => some (t, reqs)
    | none => none
  | _ => none

/-- Required-property loop of `build_destination_path` (lines 146 to 149):
first property that is absent or null, if any. -/
def firstMissing (datum : Datum) : List String → Option String
  | [] => none
  | p :: rest =>
    match datum.getD p with
    | some (some _) => firstMissing datum rest
    | _ => some p

/-- Embedding of `build_destination_path` (lines 114 to 162): validates the
type field, validates required properties, builds the filename, dispatches on
the frame type to a directory-shape builder and normalizes the result.  The
final branch models the `UnboundLocalError` that Python would raise if no
dispatch arm matched; it is unreachable for known frame types. -/
def build_destination_path (source_file : String) (dest_dir : String) (datum : Datum) :
    Except PyErr String :=
  match datum.getD "type" with
  | none => .error (.valueError ("Missing type metadata in " ++ source_file))
  | some tv =>
    match typeLookup tv with
    | none =>
      .error (.valueError ("Unknown frame type " ++ pyRender tv ++ " in " ++ source_file))
    | some (ft, reqs) =>
      match firstMissing datum reqs with
      | some p =>
        .error (.valueError ("Missing required " ++ p ++ " metadata for " ++ source_file))
      | none =>
        match _build_filename datum (splitextExt source_file) with
        | .error e => .error e
        | .ok filename =>
          match
            (if ft = TYPE_MASTER_BIAS then _build_bias_path datum dest_dir filename
             else if ft = TYPE_MASTER_DARK then _build_dark_path datum dest_dir filename
             else if ft = TYPE_MASTER_FLAT then _build_flat_path datum dest_dir filename
             else .error (.typeError "local variable dest_path referenced before assignment"))
          with
          | .error e => .error e
          | .ok dest_path => .ok (pyNormpath dest_path)

/-- Per-frame-type run statistics (lines 244 to 248). -/
structure TypeStats where
  scanned : Nat
  copied : Nat
  skipped : Nat
deriving DecidableEq, Repr

/-- Statistics accumulator, one record per frame-type name. -/
abbrev Stats := String → TypeStats

/-- Pointwise update of the statistics accumulator. -/
def setStats (st : Stats) (t : String) (v : TypeStats) : Stats :=
  fun x => if x = t then v else st x

/-- All-zero statistics, the initial accumulator. -/
def initStats : Stats := fun _ => ⟨0, 0, 0⟩

/-- Environment abstracting the external collaborators of the orchestrator:
the metadata source (`get_filtered_metadata`, keyed by the frame-type filter,
in dict iteration order), filesystem existence (`os.path.exists`) and the
copy capability (`copy_file`, whose failures are modelled as a boolean
outcome). -/
structure Env where
  metadata : String → List (String × Datum)
  destExists : String → Bool
  copyOk : String → String → Bool

/-- Planning loop of the orchestrator (lines 270 to 283): each file is
planned; `ValueError` and `KeyError` count the file as skipped and processing
continues with the next file; any other exception propagates. -/
def buildCopyList (dest_dir : String) : List (String × Datum) →
    Except PyErr (List (String × String) × Nat)
  | [] => .ok ([], 0)
  | (sf, d) :: rest =>
    match build_destination_path sf dest_dir d with
    | .ok df =>
      match buildCopyList dest_dir rest with
      | .ok (l, n) => .ok ((sf, df) :: l, n)
      | .error e => .error e
    | .error (.valueError _) =>
      match buildCopyList dest_dir rest with
      | .ok (l, n) => .ok (l, n + 1)
      | .error e => .error e
    | .error (.keyError _) =>
      match buildCopyList dest_dir rest with
      | .ok (l, n) => .ok (l, n + 1)
      | .error e => .error e
    | .error e => .error e

/-- Embedding of `_check_for_collisions` (lines 165 to 179): the destinations
of the copy list that already exist. -/
def _check_for_collisions (env : Env) (copy_list : List (String × String)) : List String :=
  (copy_list.filter (fun p => env.destExists p.2)).map (fun p => p.2)

/-- Copy loop of the orchestrator (lines 297 to 311): every pair is
attempted; the result counts successful copies and failed (skipped) copies. -/
def copyLoop (env : Env) : List (String × String) → Nat × Nat
  | [] => (0, 0)
  | (s, d) :: rest =>
    let r := copyLoop env rest
    if env.copyOk s d then (r.1 + 1, r.2) else (r.1, r.2 + 1)

/-- Outcome of a run: the copy invocations that were performed, and either
the final statistics or the exception that aborted the run. -/
structure RunOutcome where
  copies : List (String × String)
  result : Except PyErr Stats

/-- Per-frame-type loop of `copy_calibration_frames` (lines 251 to 311):
scan, plan (skipping invalid metadata), guard against collisions under
`no_overwrite`, then copy (skipping failed copies), accumulating statistics
and moving to the next frame type. -/
def runTypes (env : Env) (dest_dir : String) (no_overwrite : Bool) :
    List String → Stats → List (String × String) → RunOutcome
  | [], stats, copies => ⟨copies, .ok stats⟩
  | t :: rest, stats, copies =>
    let files := env.metadata t
    let stats1 := setStats stats t { stats t with scanned := files.length }
    match buildCopyList dest_dir files with
    | .error e => ⟨copies, .error e⟩
    | .ok (copy_list, nskip) =>
      let stats2 := setStats stats1 t
        { stats1 t with skipped := (stats1 t).skipped + nskip }
      if no_overwrite && !(_check_for_collisions env copy_list).isEmpty then
        ⟨copies, .error (.fileExistsError (_check_for_collisions env copy_list))⟩
      else
        let r := copyLoop env copy_list
        let stats3 := setStats stats2 t
          { stats2 t with copied := (stats2 t).copied + r.1,
                          skipped := (stats2 t).skipped + r.2 }
        runTypes env dest_dir no_overwrite rest stats3 (copies ++ copy_list)

/-- Embedding of `copy_calibration_frames` (lines 212 to 314) from the point
after source-directory validation: processes the three frame types in their
configured order over the abstract environment. -/
def copy_calibration_frames (env : Env) (dest_dir : String) (no_overwrite : Bool) :
    RunOutcome :=
  runTypes env dest_dir no_overwrite MASTER_CALIBRATION_TYPES initStats []

/-- Whether a run completed without a fatal error. -/
def resultOk (o : RunOutcome) : Bool :=
  match o.result with
  | .ok _ => true
  | .error _ => false

/-- Whether a run aborted with the collision error of the overwrite guard. -/
def isCollisionAbort (o : RunOutcome) : Bool :=
  match o.result with
  | .error (.fileExistsError _) => true
  | _ => false

/-- Final statistics of a run for one frame type (zeros when the run
aborted). -/
def statsAt (o : RunOutcome) (t : String) : TypeStats :=
  match o.result with
  | .ok f => f t
  | .error _ => ⟨0, 0, 0⟩

/-- Whether a planning or run step succeeded. -/
def exceptOk {α : Type} : Except PyErr α → Bool
  | .ok _ => true
  | .error _ => false

/-- Planned (source, destination) pairs of one frame type (empty when
planning aborted fatally). -/
def planPairs (env : Env) (dest_dir : String) (t : String) : List (String × String) :=
  match buildCopyList dest_dir (env.metadata t) with
  | .ok (l, _) => l
  | .error _ => []

/-- Number of files of one frame type skipped during planning. -/
def planSkips (env : Env) (dest_dir : String) (t : String) : Nat :=
  match buildCopyList dest_dir (env.metadata t) with
  | .ok (_, n) => n
  | .error _ => 0

/-- Whether a planner result is the `InvalidMetadata` failure of the spec
(the `ValueError` of the source). -/
def isInvalidMetadata : Except PyErr String → Bool
  | .error (.valueError _) => true
  | _ => false

/-- Whether an exception is one the planning loop of the orchestrator
catches (line 280 of the source: `ValueError` or `KeyError`). -/
def caughtByPlanner : PyErr → Bool
  | .valueError _ => true
  | .keyError _ => true
  | _ => false

/-- Written from the spec (claim C4): the planned filename starts with the
lower-camel-case frame-type label, then for each configured optional
property, in declared order, a segment with the display key and the value
when the property is present and non-null, and the extension last.  Compared
against the filename the source builds. -/
def spec_filename (t : String) (props : List String) (datum : Datum) (ext : String) : String :=
  camelCase t ++
    String.join (props.filterMap (fun key =>
      match datum.getD key with
      | some (some v) => some ("_" ++ displayKey key ++ "_" ++ v.render)
      | _ => none)) ++ ext

/-- Written from the spec (claim C5): the optic directory segment is present
exactly when the optic property is present, non-null and a non-empty string.
Compared against the directory the source builds. -/
def specOpticSeg (datum : Datum) : List String :=
  match datum.getD NORMALIZED_HEADER_OPTIC with
  | some (some (.str s)) => if s ≠ "" then [s] else []
  | _ => []

/-- Concrete example environment: one valid bias file with no collision and
one valid dark file whose planned destination already exists; every copy
succeeds. -/
def collisionEnv : Env :=
  ⟨fun t =>
    if t = TYPE_MASTER_BIAS then
      [("/src/bias.xisf",
        [("type", some (.str "MASTER BIAS")), ("camera", some (.str "DWARFIII")),
         ("gain", some (.int 100))])]
    else if t = TYPE_MASTER_DARK then
      [("/src/dark.xisf",
        [("type", some (.str "MASTER DARK")), ("camera", some (.str "DWARFIII")),
         ("exposureseconds", some (.int 300))])]
    else [],
   fun p => p == "/dest/MASTER DARK/DWARFIII/masterDark_EXPTIME_300.xisf",
   fun _ _ => true⟩

/-- Concrete example environment: one valid and one invalid bias file, one
valid dark file whose copy fails; no destination exists beforehand. -/
def localFailEnv : Env :=
  ⟨fun t =>
    if t = TYPE_MASTER_BIAS then
      [("/src/bias.xisf",
        [("type", some (.str "MASTER BIAS")), ("camera", some (.str "DWARFIII")),
         ("gain", some (.int 100))]),
       ("/src/bad.xisf", [("type", some (.str "MASTER BIAS")), ("gain", some (.int 100))])]
    else if t = TYPE_MASTER_DARK then
      [("/src/dark.xisf",
        [("type", some (.str "MASTER DARK")), ("camera", some (.str "DWARFIII")),
         ("exposureseconds", some (.int 300))])]
    else [],
   fun _ => false,
   fun s _ => s != "/src/dark.xisf"⟩

theorem asPathStr_error (v : Option Scalar) (e : PyErr) (h : asPathStr v = .error e) :
    ∃ m, e = .typeError m := by
  unfold asPathStr at h
  split at h <;> simp_all
  · exact ⟨_, h.symm⟩
  · exact ⟨_, h.symm⟩

theorem filename_error_kinds (datum : Datum) (ext : String) (e : PyErr)
    (h : _build_filename datum ext = .error e) :
    (∃ k, e = .keyError k) ∨ (∃ m, e = .typeError m) := by
  unfold _build_filename at h
  split at h
  · simp at h
    exact Or.inl ⟨_, h.symm⟩
  · split at h
    · simp at h
      exact Or.inl ⟨_, h.symm⟩
    · simp at h
  · simp at h
    exact Or.inr ⟨_, h.symm⟩

theorem bias_error_kinds (d : Datum) (dd fn : String) (e : PyErr)
    (h : _build_bias_path d dd fn = .error e) :
    (∃ k, e = .keyError k) ∨ (∃ m, e = .typeError m) := by
  unfold _build_bias_path at h
  split at h
  · simp at h
    exact Or.inl ⟨_, h.symm⟩
  · split at h
    · simp at h
      exact Or.inl ⟨_, h.symm⟩
    · split at h
      · rename_i e2 he2
        simp at h
        obtain ⟨m, rfl⟩ := asPathStr_error _ _ he2
        exact Or.inr ⟨m, h.symm⟩
      · split at h
        · rename_i e2 he2
          simp at h
          obtain ⟨m, rfl⟩ := asPathStr_error _ _ he2
          exact Or.inr ⟨m, h.symm⟩
        · simp at h

theorem dark_error_kinds (d : Datum) (dd fn : String) (e : PyErr)
    (h : _build_dark_path d dd fn = .error e) :
    (∃ k, e = .keyError k) ∨ (∃ m, e = .typeError m) := by
  unfold _build_dark_path at h
  split at h
  · simp at h
    exact Or.inl ⟨_, h.symm⟩
  · split at h
    · simp at h
      exact Or.inl ⟨_, h.symm⟩
    · split at h
      · rename_i e2 he2
        simp at h
        obtain ⟨m, rfl⟩ := asPathStr_error _ _ he2
        exact Or.inr ⟨m, h.symm⟩
      · split at h
        · rename_i e2 he2
          simp at h
          obtain ⟨m, rfl⟩ := asPathStr_error _ _ he2
          exact Or.inr ⟨m, h.symm⟩
        · simp at h

theorem opticPart_error (d : Datum) (e : PyErr) (h : opticPart d = .error e) :
    ∃ m, e = .typeError m := by
  unfold opticPart at h
  split at h <;> simp_all
  · split at h <;> simp_all
  · exact ⟨_, h.symm⟩

theorem flat_error_kinds (d : Datum) (dd fn : String) (e : PyErr)
    (h : _build_flat_path d dd fn = .error e) :
    (∃ k, e = .keyError k) ∨ (∃ m, e = .typeError m) := by
  unfold _build_flat_path at h
  split at h
  · simp at h
    exact Or.inl ⟨_, h.symm⟩
  · split at h
    · simp at h
      exact Or.inl ⟨_, h.symm⟩
    · split at h
      · simp at h
        exact Or.inl ⟨_, h.symm⟩
      · split at h
        · rename_i e2 he2
          simp at h
          obtain ⟨m, rfl⟩ := opticPart_error _ _ he2
          exact Or.inr ⟨m, h.symm⟩
        · split at h
          · rename_i e2 he2
            simp at h
            obtain ⟨m, rfl⟩ := asPathStr_error _ _ he2
            exact Or.inr ⟨m, h.symm⟩
          · split at h
            · rename_i e2 he2
              simp at h
              obtain ⟨m, rfl⟩ := asPathStr_error _ _ he2
              exact Or.inr ⟨m, h.symm⟩
            · simp at h

theorem bdp_error_kinds (sf dd : String) (d : Datum) (e : PyErr)
    (h : build_destination_path sf dd d = .error e) :
    (∃ m, e = .valueError m) ∨ (∃ k, e = .keyError k) ∨ (∃ m, e = .typeError m) := by
  unfold build_destination_path at h
  split at h
  · simp at h
    exact Or.inl ⟨_, h.symm⟩
  · split at h
    · simp at h
      exact Or.inl ⟨_, h.symm⟩
    · split at h
      · simp at h
        exact Or.inl ⟨_, h.symm⟩
      · split at h
        · rename_i e2 he2
          simp at h
          subst h
          rcases filename_error_kinds _ _ _ he2 with ⟨k, hk⟩ | ⟨m, hm⟩
          · exact Or.inr (Or.inl ⟨k, hk⟩)
          · exact Or.inr (Or.inr ⟨m, hm⟩)
        · split at h
          · rename_i e2 he2
            simp at h
            subst h
            split at he2
            · rcases bias_error_kinds _ _ _ _ he2 with ⟨k, hk⟩ | ⟨m, hm⟩
              · exact Or.inr (Or.inl ⟨k, hk⟩)
              · exact Or.inr (Or.inr ⟨m, hm⟩)
            · split at he2
              · rcases dark_error_kinds _ _ _ _ he2 with ⟨k, hk⟩ | ⟨m, hm⟩
                · exact Or.inr (Or.inl ⟨k, hk⟩)
                · exact Or.inr (Or.inr ⟨m, hm⟩)
              · split at he2
                · rcases flat_error_kinds _ _ _ _ he2 with ⟨k, hk⟩ | ⟨m, hm⟩
                  · exact Or.inr (Or.inl ⟨k, hk⟩)
                  · exact Or.inr (Or.inr ⟨m, hm⟩)
                · simp at he2
                  exact Or.inr (Or.inr ⟨_, he2.symm⟩)
          · simp at h
theorem getD_setVal_ne (d : Datum) (k k2 : String) (w : Option Scalar) (h : k2 ≠ k) :
    (d.setVal k w).getD k2 = d.getD k2 := by
  induction d with
  | nil => rfl
  | cons p rest ih =>
    obtain ⟨pk, pv⟩ := p
    by_cases hk : pk = k
    · subst hk
      simp [Datum.setVal, Datum.getD, Ne.symm h]
    · by_cases hk2 : pk = k2
      · subst hk2
        simp [Datum.setVal, Datum.getD, hk]
      · simp [Datum.setVal, Datum.getD, hk, hk2, ih]

theorem getD_setVal_present (d : Datum) (k : String) (w : Option Scalar)
    (h : d.getD k ≠ none) : (d.setVal k w).getD k = some w := by
  induction d with
  | nil => simp [Datum.getD] at h
  | cons p rest ih =>
    obtain ⟨pk, pv⟩ := p
    by_cases hk : pk = k
    · subst hk
      simp [Datum.setVal, Datum.getD]
    · simp [Datum.setVal, Datum.getD, hk] at h ⊢
      exact ih h

theorem getD_eraseKey (d : Datum) (k k2 : String) :
    (d.eraseKey k).getD k2 = if k2 = k then none else d.getD k2 := by
  induction d with
  | nil => simp [Datum.eraseKey, Datum.getD]
  | cons p rest ih =>
    obtain ⟨pk, pv⟩ := p
    by_cases hpk : pk = k
    · subst hpk
      by_cases hk2 : k2 = pk
      · subst hk2
        simp [Datum.eraseKey, ih]
      · simp [Datum.eraseKey, ih, hk2, Datum.getD, Ne.symm hk2]
    · by_cases hk2 : pk = k2
      · subst hk2
        simp [Datum.eraseKey, hpk, Datum.getD]
      · simp only [Datum.eraseKey, if_neg hpk, Datum.getD, if_neg hk2]
        exact ih

theorem foldl_append_str (l : List String) (s : String) :
    l.foldl (fun a b => a ++ b) s = s ++ l.foldl (fun a b => a ++ b) "" := by
  induction l generalizing s with
  | nil => simp
  | cons x xs ih =>
    simp only [List.foldl]
    rw [ih (s ++ x), ih ("" ++ x), String.empty_append, String.append_assoc]

theorem join_cons (x : String) (l : List String) :
    String.join (x :: l) = x ++ String.join l := by
  simp only [String.join, List.foldl]
  rw [foldl_append_str l ("" ++ x), String.empty_append]

theorem fnameFold_append (datum : Datum) (props : List String) (acc : String) :
    fnameFold datum props acc = acc ++ String.join (props.map (segFor datum)) := by
  induction props generalizing acc with
  | nil => simp [fnameFold, String.join]
  | cons key rest ih =>
    simp only [fnameFold]
    rw [ih, List.map_cons, join_cons, ← String.append_assoc]

theorem join_map_filterMap (datum : Datum) (props : List String) :
    String.join (props.map (segFor datum)) =
      String.join (props.filterMap (fun key =>
        match datum.getD key with
        | some (some v) => some ("_" ++ displayKey key ++ "_" ++ v.render)
        | _ => none)) := by
  induction props with
  | nil => rfl
  | cons key rest ih =>
    simp only [List.map_cons, List.filterMap_cons]
    cases h : datum.getD key with
    | none =>
      simp only [segFor, h, join_cons, ih]
      rw [String.empty_append]
    | some v =>
      cases v with
      | none =>
        simp only [segFor, h, join_cons, ih]
        rw [String.empty_append]
      | some w =>
        simp only [segFor, h, join_cons, ih]

theorem str_len_pos_iff (s : String) : (s.length > 0) ↔ s ≠ "" := by
  constructor
  · intro h he
    rw [he] at h
    simp [String.length_empty] at h
  · intro h
    obtain ⟨l⟩ := s
    cases l with
    | nil => exact absurd rfl h
    | cons a as => simp [String.length_mk]
theorem getD_congr_hasKey (d1 d2 : Datum) (h : ∀ k, d1.getD k = d2.getD k) (k : String) :
    d1.hasKey k = d2.hasKey k := by
  unfold Datum.hasKey
  rw [h]

theorem firstMissing_congr (d1 d2 : Datum) (h : ∀ k, d1.getD k = d2.getD k) (reqs : List String) :
    firstMissing d1 reqs = firstMissing d2 reqs := by
  induction reqs with
  | nil => rfl
  | cons p rest ih => simp only [firstMissing, h, ih]

theorem segFor_congr (d1 d2 : Datum) (h : ∀ k, d1.getD k = d2.getD k) (key : String) :
    segFor d1 key = segFor d2 key := by
  unfold segFor
  rw [h]

theorem fnameFold_congr_on (d1 d2 : Datum) (props : List String)
    (h : ∀ k ∈ props, d1.getD k = d2.getD k) (acc : String) :
    fnameFold d1 props acc = fnameFold d2 props acc := by
  induction props generalizing acc with
  | nil => rfl
  | cons key rest ih =>
    simp only [fnameFold]
    rw [show segFor d1 key = segFor d2 key by unfold segFor; rw [h key (by simp)]]
    exact ih (fun k hk => h k (by simp [hk])) _

theorem fnameFold_congr (d1 d2 : Datum) (h : ∀ k, d1.getD k = d2.getD k)
    (props : List String) (acc : String) :
    fnameFold d1 props acc = fnameFold d2 props acc :=
  fnameFold_congr_on d1 d2 props (fun k _ => h k) acc

theorem filename_congr (d1 d2 : Datum) (h : ∀ k, d1.getD k = d2.getD k) (ext : String) :
    _build_filename d1 ext = _build_filename d2 ext := by
  unfold _build_filename
  rw [h]
  simp only [fnameFold_congr d1 d2 h]

theorem opticPart_congr (d1 d2 : Datum) (h : ∀ k, d1.getD k = d2.getD k) :
    opticPart d1 = opticPart d2 := by
  unfold opticPart
  rw [h]

theorem bias_congr (d1 d2 : Datum) (h : ∀ k, d1.getD k = d2.getD k) (dd fn : String) :
    _build_bias_path d1 dd fn = _build_bias_path d2 dd fn := by
  unfold _build_bias_path
  rw [h, h]

theorem dark_congr (d1 d2 : Datum) (h : ∀ k, d1.getD k = d2.getD k) (dd fn : String) :
    _build_dark_path d1 dd fn = _build_dark_path d2 dd fn := by
  unfold _build_dark_path
  rw [h, h]

theorem flat_congr (d1 d2 : Datum) (h : ∀ k, d1.getD k = d2.getD k) (dd fn : String) :
    _build_flat_path d1 dd fn = _build_flat_path d2 dd fn := by
  unfold _build_flat_path
  rw [h, h, h, opticPart_congr d1 d2 h]

theorem bdp_congr (sf dd : String) (d1 d2 : Datum) (h : ∀ k, d1.getD k = d2.getD k) :
    build_destination_path sf dd d1 = build_destination_path sf dd d2 := by
  unfold build_destination_path
  rw [h]
  simp only [firstMissing_congr d1 d2 h, filename_congr d1 d2 h,
    bias_congr d1 d2 h, dark_congr d1 d2 h, flat_congr d1 d2 h]
theorem getD_perm : ∀ (d1 d2 : Datum), d1.Perm d2 → (d1.map Prod.fst).Nodup →
    ∀ k, d1.getD k = d2.getD k := by
  intro d1 d2 hp
  induction hp with
  | nil =>
    intro _ k
    rfl
  | cons x hp ih =>
    intro hnd k
    obtain ⟨xk, xv⟩ := x
    simp only [List.map_cons] at hnd
    simp only [Datum.getD]
    by_cases hk : xk = k
    · simp [hk]
    · simp only [if_neg hk]
      exact ih hnd.of_cons k
  | swap x y l =>
    intro hnd k
    obtain ⟨xk, xv⟩ := x
    obtain ⟨yk, yv⟩ := y
    simp only [List.map_cons, List.nodup_cons, List.mem_cons] at hnd
    have hxy : yk ≠ xk := fun he => hnd.1 (Or.inl he)
    simp only [Datum.getD]
    by_cases hyk : yk = k
    · subst hyk
      simp [Ne.symm hxy]
    · simp [hyk]
  | trans hp1 hp2 ih1 ih2 =>
    intro hnd k
    rw [ih1 hnd k, ih2 (((hp1.map Prod.fst).nodup_iff).mp hnd) k]

/-- Claim C6: the path planner is a pure deterministic function of the
metadata record contents: two records that are permutations of one another
(same key-value pairs, different dict iteration order, keys unique) plan the
identical destination path, so filename property order depends only on the
configured property list, never on record iteration order. -/
theorem C6_planner_deterministic (sf dd : String) (d1 d2 : Datum)
    (hp : d1.Perm d2) (hnd : (d1.map Prod.fst).Nodup) :
    build_destination_path sf dd d1 = build_destination_path sf dd d2 :=
  bdp_congr sf dd d1 d2 (getD_perm d1 d2 hp hnd)

/-- Witness for C6 at a concrete record and a reordering of it. -/
theorem C6_planner_deterministic_witness :
    build_destination_path "a.xisf" "/lib"
        [("type", some (.str "MASTER BIAS")), ("camera", some (.str "CAM1")),
         ("gain", some (.int 100))] =
      build_destination_path "a.xisf" "/lib"
        [("gain", some (.int 100)), ("camera", some (.str "CAM1")),
         ("type", some (.str "MASTER BIAS"))] :=
  C6_planner_deterministic "a.xisf" "/lib" _ _ (by decide) (by decide)

/-- Claim C2 as stated is false: with the frame-type label of the section 8
example, the planner rejects the record as an unknown frame type instead of
returning the claimed path. -/
theorem C2_counterexample :
    build_destination_path "a.xisf" "/lib"
        [("type", some (.str "bias master")), ("camera", some (.str "CAM1")),
         ("gain", some (.int 100))] =
      .error (.valueError "Unknown frame type bias master in a.xisf") ∧
    build_destination_path "a.xisf" "/lib"
        [("type", some (.str "bias master")), ("camera", some (.str "CAM1")),
         ("gain", some (.int 100))] ≠
      .ok "/lib/bias master/CAM1/masterBias_GAIN_100.xisf" :=
  ⟨by rfl, by decide⟩

/-- Claim C2 amended: with the frame-type label the configuration actually
uses (MASTER BIAS), the example record plans the claimed filename under the
corrected type directory. -/
theorem C2_bias_example_amended :
    build_destination_path "a.xisf" "/lib"
        [("type", some (.str "MASTER BIAS")), ("camera", some (.str "CAM1")),
         ("gain", some (.int 100))] =
      .ok "/lib/MASTER BIAS/CAM1/masterBias_GAIN_100.xisf" := by rfl

/-- Claim C8: the bias and dark directory-shape builders are extensionally
equal, and on records with string type and camera both return
destRoot/frameType/camera/filename. -/
theorem C8_bias_dark_equal :
    (∀ (d : Datum) (dd fn : String), _build_bias_path d dd fn = _build_dark_path d dd fn) ∧
    (∀ (d : Datum) (dd fn t c : String),
      d.getD "type" = some (some (.str t)) →
      d.getD NORMALIZED_HEADER_CAMERA = some (some (.str c)) →
      _build_bias_path d dd fn = .ok (os_path_join dd [t, c, fn])) := by
  constructor
  · intro d dd fn
    rfl
  · intro d dd fn t c ht hc
    unfold _build_bias_path
    simp only [ht, hc, asPathStr]

/-- Witness for C8 at a concrete record. -/
theorem C8_bias_dark_equal_witness :
    _build_bias_path [("type", some (.str "MASTER BIAS")), ("camera", some (.str "DWARFIII"))]
        "/dest" "test.xisf" =
      _build_dark_path [("type", some (.str "MASTER BIAS")), ("camera", some (.str "DWARFIII"))]
        "/dest" "test.xisf" ∧
    _build_bias_path [("type", some (.str "MASTER BIAS")), ("camera", some (.str "DWARFIII"))]
        "/dest" "test.xisf" =
      .ok (os_path_join "/dest" ["MASTER BIAS", "DWARFIII", "test.xisf"]) :=
  ⟨C8_bias_dark_equal.1 _ "/dest" "test.xisf",
   C8_bias_dark_equal.2 _ "/dest" "test.xisf" "MASTER BIAS" "DWARFIII" rfl rfl⟩

/-- Claim C10: the directory-shape builders raise `KeyError` (not only the
`ValueError` of `InvalidMetadata`) when an accessed path-determining property
is absent, and the planning loop of the orchestrator treats a `KeyError` from
planning exactly like a `ValueError`: the file counts as skipped and
processing continues. -/
theorem C10_keyerror_widening :
    (∀ (d : Datum) (dd fn : String) (tv : Option Scalar),
      d.getD "type" = some tv → d.getD NORMALIZED_HEADER_CAMERA = none →
      _build_bias_path d dd fn = .error (.keyError NORMALIZED_HEADER_CAMERA)) ∧
    (∀ (d : Datum) (dd fn : String),
      d.getD NORMALIZED_HEADER_DATE = none →
      _build_flat_path d dd fn = .error (.keyError NORMALIZED_HEADER_DATE)) ∧
    (∀ (dest_dir sf : String) (d : Datum) (rest : List (String × Datum)) (e : PyErr),
      build_destination_path sf dest_dir d = .error e → caughtByPlanner e = true →
      buildCopyList dest_dir ((sf, d) :: rest) =
        (buildCopyList dest_dir rest).map (fun p => (p.1, p.2 + 1))) := by
  refine ⟨?_, ?_, ?_⟩
  · intro d dd fn tv ht hc
    unfold _build_bias_path
    simp [ht, hc]
  · intro d dd fn hd
    unfold _build_flat_path
    simp [hd]
  · intro dest_dir sf d rest e h hc
    simp only [buildCopyList]
    rw [h]
    cases e with
    | valueError m =>
      cases hr : buildCopyList dest_dir rest <;> simp [Except.map]
    | keyError k =>
      cases hr : buildCopyList dest_dir rest <;> simp [Except.map]
    | typeError m => simp [caughtByPlanner] at hc
    | fileExistsError l => simp [caughtByPlanner] at hc

/-- Witness for C10 at concrete records: a bias record without camera, a flat
record without date, and a planning loop over one invalid file. -/
theorem C10_keyerror_widening_witness :
    _build_bias_path [("type", some (.str "MASTER BIAS"))] "/d" "f.xisf" =
      .error (.keyError NORMALIZED_HEADER_CAMERA) ∧
    _build_flat_path [("type", some (.str "MASTER FLAT"))] "/d" "f.xisf" =
      .error (.keyError NORMALIZED_HEADER_DATE) ∧
    buildCopyList "/d" [("s.xisf", [("type", some (.str "MASTER BIAS"))])] = .ok ([], 1) := by
  refine ⟨?_, ?_, ?_⟩
  · exact C10_keyerror_widening.1 _ "/d" "f.xisf" _ rfl rfl
  · exact C10_keyerror_widening.2.1 _ "/d" "f.xisf" rfl
  · rw [C10_keyerror_widening.2.2 "/d" "s.xisf" [("type", some (.str "MASTER BIAS"))] []
      (.valueError "Missing required camera metadata for s.xisf") (by rfl) rfl]
    rfl
theorem firstMissing_none_iff (datum : Datum) (reqs : List String) :
    firstMissing datum reqs = none ↔ ∀ p ∈ reqs, ∃ v, datum.getD p = some (some v) := by
  induction reqs with
  | nil => simp [firstMissing]
  | cons q rest ih =>
    simp only [firstMissing, List.mem_cons]
    cases hq : datum.getD q with
    | none => simp [hq]
    | some ov =>
      cases ov with
      | none => simp [hq]
      | some v =>
        simp only
        rw [ih]
        constructor
        · intro h p hp
          rcases hp with rfl | hp
          · exact ⟨v, hq⟩
          · exact h p hp
        · intro h p hp
          exact h p (Or.inr hp)

theorem firstMissing_some_mem (datum : Datum) (reqs : List String) (p : String)
    (h : firstMissing datum reqs = some p) :
    p ∈ reqs ∧ (datum.getD p = none ∨ datum.getD p = some none) := by
  induction reqs with
  | nil => simp [firstMissing] at h
  | cons q rest ih =>
    simp only [firstMissing] at h
    cases hq : datum.getD q with
    | none =>
      rw [hq] at h
      simp at h
      subst h
      exact ⟨by simp, Or.inl hq⟩
    | some ov =>
      cases ov with
      | none =>
        rw [hq] at h
        simp at h
        subst h
        exact ⟨by simp, Or.inr hq⟩
      | some v =>
        rw [hq] at h
        obtain ⟨hm, hv⟩ := ih h
        exact ⟨by simp [hm], hv⟩

theorem requiredKeys (t : String) (reqs : List String)
    (h : lookupList REQUIRED_PROPERTIES t = some reqs) :
    (t = TYPE_MASTER_BIAS ∧ reqs = [NORMALIZED_HEADER_CAMERA]) ∨
    (t = TYPE_MASTER_DARK ∧ reqs = [NORMALIZED_HEADER_CAMERA]) ∨
    (t = TYPE_MASTER_FLAT ∧ reqs = [NORMALIZED_HEADER_CAMERA, NORMALIZED_HEADER_DATE]) := by
  by_cases h1 : TYPE_MASTER_BIAS = t
  · simp [lookupList, REQUIRED_PROPERTIES, List.find?, h1] at h
    exact Or.inl ⟨h1.symm, h.symm⟩
  · by_cases h2 : TYPE_MASTER_DARK = t
    · simp [lookupList, REQUIRED_PROPERTIES, List.find?, h1, h2] at h
      exact Or.inr (Or.inl ⟨h2.symm, h.symm⟩)
    · by_cases h3 : TYPE_MASTER_FLAT = t
      · simp [lookupList, REQUIRED_PROPERTIES, List.find?, h1, h2, h3] at h
        exact Or.inr (Or.inr ⟨h3.symm, h.symm⟩)
      · simp [lookupList, REQUIRED_PROPERTIES, List.find?, h1, h2, h3] at h

theorem typeLookup_eq (tv : Option Scalar) (ft : String) (reqs : List String)
    (h : typeLookup tv = some (ft, reqs)) :
    tv = some (.str ft) ∧
    (ft = TYPE_MASTER_BIAS ∨ ft = TYPE_MASTER_DARK ∨ ft = TYPE_MASTER_FLAT) := by
  unfold typeLookup at h
  split at h
  · rename_i t
    split at h
    · rename_i reqs2 hl
      simp at h
      obtain ⟨he, _⟩ := h
      subst he
      rcases requiredKeys t reqs2 hl with ⟨h1, _⟩ | ⟨h1, _⟩ | ⟨h1, _⟩
      · exact ⟨rfl, Or.inl h1⟩
      · exact ⟨rfl, Or.inr (Or.inl h1)⟩
      · exact ⟨rfl, Or.inr (Or.inr h1)⟩
    · simp at h
  · simp at h

theorem filename_ok_known (datum : Datum) (ext t : String)
    (ht : datum.getD "type" = some (some (.str t)))
    (hk : t = TYPE_MASTER_BIAS ∨ t = TYPE_MASTER_DARK ∨ t = TYPE_MASTER_FLAT) :
    ∃ fn, _build_filename datum ext = .ok fn := by
  unfold _build_filename
  rcases hk with rfl | rfl | rfl <;> simp [ht] <;> exact ⟨_, rfl⟩
/-- Claim C3: the planner raises `InvalidMetadata` (a `ValueError`) exactly
when the type field is absent, the type is not a known frame type, or a
property required for the frame type is absent or null; in the last case the
error message names the (first) missing property. -/
theorem C3_invalid_metadata_iff (sf dd : String) (datum : Datum) :
    (isInvalidMetadata (build_destination_path sf dd datum) = true ↔
      (datum.getD "type" = none ∨
       (∃ tv, datum.getD "type" = some tv ∧ typeLookup tv = none) ∨
       (∃ tv t reqs, datum.getD "type" = some tv ∧ typeLookup tv = some (t, reqs) ∧
         ∃ p ∈ reqs, datum.getD p = none ∨ datum.getD p = some none))) ∧
    (∀ tv t reqs p, datum.getD "type" = some tv → typeLookup tv = some (t, reqs) →
      firstMissing datum reqs = some p →
      build_destination_path sf dd datum =
        .error (.valueError ("Missing required " ++ p ++ " metadata for " ++ sf))) := by
  have naming : ∀ tv t reqs p, datum.getD "type" = some tv → typeLookup tv = some (t, reqs) →
      firstMissing datum reqs = some p →
      build_destination_path sf dd datum =
        .error (.valueError ("Missing required " ++ p ++ " metadata for " ++ sf)) := by
    intro tv t reqs p htv htl hfm
    unfold build_destination_path
    simp [htv, htl, hfm]
  refine ⟨?_, naming⟩
  constructor
  · intro h
    unfold build_destination_path at h
    split at h
    · rename_i htv
      exact Or.inl htv
    · rename_i tv htv
      split at h
      · rename_i htl
        exact Or.inr (Or.inl ⟨tv, htv, htl⟩)
      · rename_i ft reqs htl
        split at h
        · rename_i p hfm
          obtain ⟨hm, hv⟩ := firstMissing_some_mem datum reqs p hfm
          exact Or.inr (Or.inr ⟨tv, ft, reqs, htv, htl, p, hm, hv⟩)
        · rename_i hfm
          exfalso
          obtain ⟨hts, hk⟩ := typeLookup_eq tv ft reqs htl
          subst hts
          obtain ⟨fn, hfn⟩ := filename_ok_known datum (splitextExt sf) ft htv hk
          rw [hfn] at h
          simp only at h
          rcases hk with rfl | rfl | rfl
          · rw [if_pos rfl] at h
            cases hb : _build_bias_path datum dd fn with
            | ok s =>
              rw [hb] at h
              simp [isInvalidMetadata] at h
            | error e =>
              rw [hb] at h
              rcases bias_error_kinds datum dd fn e hb with ⟨k, rfl⟩ | ⟨m, rfl⟩ <;>
                simp [isInvalidMetadata] at h
          · rw [if_neg (by decide), if_pos rfl] at h
            cases hb : _build_dark_path datum dd fn with
            | ok s =>
              rw [hb] at h
              simp [isInvalidMetadata] at h
            | error e =>
              rw [hb] at h
              rcases dark_error_kinds datum dd fn e hb with ⟨k, rfl⟩ | ⟨m, rfl⟩ <;>
                simp [isInvalidMetadata] at h
          · rw [if_neg (by decide), if_neg (by decide), if_pos rfl] at h
            cases hb : _build_flat_path datum dd fn with
            | ok s =>
              rw [hb] at h
              simp [isInvalidMetadata] at h
            | error e =>
              rw [hb] at h
              rcases flat_error_kinds datum dd fn e hb with ⟨k, rfl⟩ | ⟨m, rfl⟩ <;>
                simp [isInvalidMetadata] at h
  · intro h
    rcases h with htv | ⟨tv, htv, htl⟩ | ⟨tv, t, reqs, htv, htl, p, hm, hv⟩
    · unfold build_destination_path
      simp [htv, isInvalidMetadata]
    · unfold build_destination_path
      simp [htv, htl, isInvalidMetadata]
    · have hfm : firstMissing datum reqs ≠ none := by
        intro h0
        rw [firstMissing_none_iff] at h0
        obtain ⟨v, hv2⟩ := h0 p hm
        rcases hv with hv | hv <;> rw [hv2] at hv <;> simp at hv
      cases hfm2 : firstMissing datum reqs with
      | none => exact absurd hfm2 hfm
      | some p2 =>
        rw [naming tv t reqs p2 htv htl hfm2]
        rfl

/-- Witness for C3: a bias record without camera is rejected with an error
naming the camera property. -/
theorem C3_invalid_metadata_iff_witness :
    build_destination_path "test.xisf" "/dest"
        [("type", some (.str "MASTER BIAS")), ("gain", some (.int 100))] =
      .error (.valueError ("Missing required " ++ "camera" ++ " metadata for " ++ "test.xisf")) :=
  (C3_invalid_metadata_iff "test.xisf" "/dest"
      [("type", some (.str "MASTER BIAS")), ("gain", some (.int 100))]).2
    (some (.str "MASTER BIAS")) "MASTER BIAS" [NORMALIZED_HEADER_CAMERA] "camera" rfl rfl rfl

/-- Claim C4: for a record of a known frame type, the planned filename is the
camelCase type label, then one underscore segment per configured optional
property (declared order, display key from the denormalization lookup with an
upper-cased-raw-key fallback, value rendered) for each present non-null
property, then the source extension (case preserved, leading dot). -/
theorem C4_filename_structure (datum : Datum) (sf t : String) (props : List String)
    (ht : datum.getD "type" = some (some (.str t)))
    (hp : lookupList FILENAME_PROPERTIES t = some props) :
    _build_filename datum (splitextExt sf) =
      .ok (spec_filename t props datum (splitextExt sf)) := by
  unfold _build_filename
  simp only [ht, hp]
  unfold spec_filename
  rw [fnameFold_append, join_map_filterMap]

/-- Witness for C4 at a concrete bias record. -/
theorem C4_filename_structure_witness :
    _build_filename [("type", some (.str "MASTER BIAS")), ("gain", some (.int 100))]
        (splitextExt "a.xisf") =
      .ok (spec_filename "MASTER BIAS" ["gain", "offset", "settemp", "readoutmode"]
        [("type", some (.str "MASTER BIAS")), ("gain", some (.int 100))]
        (splitextExt "a.xisf")) :=
  C4_filename_structure _ "a.xisf" "MASTER BIAS" _ rfl rfl
theorem bdp_unfold_valid (sf dd : String) (datum : Datum) (tv : Option Scalar) (ft : String)
    (reqs : List String) (fn : String)
    (ht : datum.getD "type" = some tv)
    (htl : typeLookup tv = some (ft, reqs))
    (hfm : firstMissing datum reqs = none)
    (hfn : _build_filename datum (splitextExt sf) = .ok fn) :
    build_destination_path sf dd datum =
      match (if ft = TYPE_MASTER_BIAS then _build_bias_path datum dd fn
             else if ft = TYPE_MASTER_DARK then _build_dark_path datum dd fn
             else if ft = TYPE_MASTER_FLAT then _build_flat_path datum dd fn
             else .error (.typeError "local variable dest_path referenced before assignment"))
      with
      | .error e => .error e
      | .ok dest_path => .ok (pyNormpath dest_path) := by
  unfold build_destination_path
  simp only [ht, htl, hfm, hfn]

theorem opticPart_spec (datum : Datum)
    (hno : ∀ n : Int, datum.getD NORMALIZED_HEADER_OPTIC ≠ some (some (.int n))) :
    opticPart datum = .ok (specOpticSeg datum) := by
  unfold opticPart specOpticSeg
  cases hod : datum.getD NORMALIZED_HEADER_OPTIC with
  | none => rfl
  | some ov =>
    cases ov with
    | none => rfl
    | some v =>
      cases v with
      | str s =>
        by_cases hs : s = ""
        · subst hs
          simp
        · have hl : s.length > 0 := (str_len_pos_iff s).mpr hs
          simp [hs, hl]
      | int n => exact absurd hod (hno n)

theorem flat_path_ok (datum : Datum) (dd fn cam : String) (dv : Scalar)
    (ht : datum.getD "type" = some (some (.str TYPE_MASTER_FLAT)))
    (hc : datum.getD NORMALIZED_HEADER_CAMERA = some (some (.str cam)))
    (hd : datum.getD NORMALIZED_HEADER_DATE = some (some dv))
    (hno : ∀ n : Int, datum.getD NORMALIZED_HEADER_OPTIC ≠ some (some (.int n))) :
    _build_flat_path datum dd fn =
      .ok (os_path_join dd
        ([TYPE_MASTER_FLAT, cam] ++ specOpticSeg datum ++ ["DATE_" ++ dv.render, fn])) := by
  unfold _build_flat_path
  simp only [hd, ht, hc, opticPart_spec datum hno, asPathStr, pyRender]

theorem flat_bdp_char (sf dd cam : String) (datum : Datum) (dv : Scalar)
    (ht : datum.getD "type" = some (some (.str TYPE_MASTER_FLAT)))
    (hc : datum.getD NORMALIZED_HEADER_CAMERA = some (some (.str cam)))
    (hd : datum.getD NORMALIZED_HEADER_DATE = some (some dv))
    (hno : ∀ n : Int, datum.getD NORMALIZED_HEADER_OPTIC ≠ some (some (.int n))) :
    build_destination_path sf dd datum =
      .ok (pyNormpath (os_path_join dd
        ([TYPE_MASTER_FLAT, cam] ++ specOpticSeg datum ++
         ["DATE_" ++ dv.render,
          fnameFold datum ["filter", "gain", "offset", "settemp", "readoutmode"]
            (camelCase TYPE_MASTER_FLAT) ++ splitextExt sf]))) := by
  have hfm : firstMissing datum [NORMALIZED_HEADER_CAMERA, NORMALIZED_HEADER_DATE] = none := by
    simp [firstMissing, hc, hd]
  have hfn : _build_filename datum (splitextExt sf) =
      .ok (fnameFold datum ["filter", "gain", "offset", "settemp", "readoutmode"]
        (camelCase TYPE_MASTER_FLAT) ++ splitextExt sf) := by
    unfold _build_filename
    simp only [ht]
    rfl
  rw [bdp_unfold_valid sf dd datum _ TYPE_MASTER_FLAT
      [NORMALIZED_HEADER_CAMERA, NORMALIZED_HEADER_DATE] _ ht (by rfl) hfm hfn]
  rw [if_neg (by decide), if_neg (by decide), if_pos rfl]
  rw [flat_path_ok datum dd _ cam dv ht hc hd hno]
/-- Claim C5: for a valid flat record, the planned path is
destRoot/frameType/camera, then the optic segment exactly when optic is
present, non-null and non-empty (per specOpticSeg), then the DATE segment,
then the filename; an empty-string optic plans the same path as an absent
optic; and changing the date value changes only the DATE directory segment,
never the filename. -/
theorem C5_flat_directory_shape (datum : Datum) (sf dd cam : String) (dv : Scalar)
    (ht : datum.getD "type" = some (some (.str TYPE_MASTER_FLAT)))
    (hc : datum.getD NORMALIZED_HEADER_CAMERA = some (some (.str cam)))
    (hd : datum.getD NORMALIZED_HEADER_DATE = some (some dv))
    (hno : ∀ n : Int, datum.getD NORMALIZED_HEADER_OPTIC ≠ some (some (.int n))) :
    (build_destination_path sf dd datum =
      .ok (pyNormpath (os_path_join dd
        ([TYPE_MASTER_FLAT, cam] ++ specOpticSeg datum ++
         ["DATE_" ++ dv.render,
          fnameFold datum ["filter", "gain", "offset", "settemp", "readoutmode"]
            (camelCase TYPE_MASTER_FLAT) ++ splitextExt sf])))) ∧
    (datum.getD NORMALIZED_HEADER_OPTIC = some (some (.str "")) →
      build_destination_path sf dd (datum.eraseKey NORMALIZED_HEADER_OPTIC) =
        build_destination_path sf dd datum) ∧
    (∀ w : Scalar,
      build_destination_path sf dd (datum.setVal NORMALIZED_HEADER_DATE (some w)) =
        .ok (pyNormpath (os_path_join dd
          ([TYPE_MASTER_FLAT, cam] ++ specOpticSeg datum ++
           ["DATE_" ++ w.render,
            fnameFold datum ["filter", "gain", "offset", "settemp", "readoutmode"]
              (camelCase TYPE_MASTER_FLAT) ++ splitextExt sf])))) := by
  refine ⟨flat_bdp_char sf dd cam datum dv ht hc hd hno, ?_, ?_⟩
  · intro hopt
    have hkeys : ∀ k, k ≠ NORMALIZED_HEADER_OPTIC →
        (datum.eraseKey NORMALIZED_HEADER_OPTIC).getD k = datum.getD k := by
      intro k hk
      rw [getD_eraseKey, if_neg hk]
    have ht2 := (hkeys "type" (by decide)).trans ht
    have hc2 := (hkeys NORMALIZED_HEADER_CAMERA (by decide)).trans hc
    have hd2 := (hkeys NORMALIZED_HEADER_DATE (by decide)).trans hd
    have hopt2 : (datum.eraseKey NORMALIZED_HEADER_OPTIC).getD NORMALIZED_HEADER_OPTIC = none := by
      rw [getD_eraseKey, if_pos rfl]
    rw [flat_bdp_char sf dd cam _ dv ht2 hc2 hd2 (by simp [hopt2]),
        flat_bdp_char sf dd cam datum dv ht hc hd hno]
    have hseg1 : specOpticSeg (datum.eraseKey NORMALIZED_HEADER_OPTIC) = [] := by
      unfold specOpticSeg
      rw [hopt2]
    have hseg2 : specOpticSeg datum = [] := by
      unfold specOpticSeg
      rw [hopt]
      simp
    rw [hseg1, hseg2,
        fnameFold_congr_on _ datum _ (fun k hk => hkeys k (by
          simp at hk
          rcases hk with rfl | rfl | rfl | rfl | rfl <;> decide)) _]
  · intro w
    have hkeys : ∀ k, k ≠ NORMALIZED_HEADER_DATE →
        (datum.setVal NORMALIZED_HEADER_DATE (some w)).getD k = datum.getD k := by
      intro k hk
      exact getD_setVal_ne datum NORMALIZED_HEADER_DATE k (some w) hk
    have ht2 := (hkeys "type" (by decide)).trans ht
    have hc2 := (hkeys NORMALIZED_HEADER_CAMERA (by decide)).trans hc
    have hd2 : (datum.setVal NORMALIZED_HEADER_DATE (some w)).getD NORMALIZED_HEADER_DATE =
        some (some w) :=
      getD_setVal_present datum NORMALIZED_HEADER_DATE (some w) (by rw [hd]; simp)
    have hno2 : ∀ n : Int, (datum.setVal NORMALIZED_HEADER_DATE (some w)).getD
        NORMALIZED_HEADER_OPTIC ≠ some (some (.int n)) := by
      intro n
      rw [hkeys NORMALIZED_HEADER_OPTIC (by decide)]
      exact hno n
    rw [flat_bdp_char sf dd cam _ w ht2 hc2 hd2 hno2]
    have hseg : specOpticSeg (datum.setVal NORMALIZED_HEADER_DATE (some w)) =
        specOpticSeg datum := by
      unfold specOpticSeg
      rw [hkeys NORMALIZED_HEADER_OPTIC (by decide)]
    rw [hseg,
        fnameFold_congr_on _ datum _ (fun k hk => hkeys k (by
          simp at hk
          rcases hk with rfl | rfl | rfl | rfl | rfl <;> decide)) _]
/-- Witness for C5 at a concrete flat record with an optic. -/
theorem C5_flat_directory_shape_witness :
    (build_destination_path "b.xisf" "/lib"
        [("type", some (.str "MASTER FLAT")), ("camera", some (.str "CAM1")),
         ("optic", some (.str "SCOPE1")), ("date", some (.str "2026-01-27")),
         ("filter", some (.str "L"))] =
      .ok (pyNormpath (os_path_join "/lib"
        ([TYPE_MASTER_FLAT, "CAM1"] ++
         specOpticSeg
           [("type", some (.str "MASTER FLAT")), ("camera", some (.str "CAM1")),
            ("optic", some (.str "SCOPE1")), ("date", some (.str "2026-01-27")),
            ("filter", some (.str "L"))] ++
         ["DATE_" ++ (Scalar.str "2026-01-27").render,
          fnameFold
            [("type", some (.str "MASTER FLAT")), ("camera", some (.str "CAM1")),
             ("optic", some (.str "SCOPE1")), ("date", some (.str "2026-01-27")),
             ("filter", some (.str "L"))]
            ["filter", "gain", "offset", "settemp", "readoutmode"]
            (camelCase TYPE_MASTER_FLAT) ++ splitextExt "b.xisf"])))) ∧
    (Datum.getD
        [("type", some (.str "MASTER FLAT")), ("camera", some (.str "CAM1")),
         ("optic", some (.str "SCOPE1")), ("date", some (.str "2026-01-27")),
         ("filter", some (.str "L"))] NORMALIZED_HEADER_OPTIC = some (some (.str "")) →
      build_destination_path "b.xisf" "/lib"
          (Datum.eraseKey
            [("type", some (.str "MASTER FLAT")), ("camera", some (.str "CAM1")),
             ("optic", some (.str "SCOPE1")), ("date", some (.str "2026-01-27")),
             ("filter", some (.str "L"))] NORMALIZED_HEADER_OPTIC) =
        build_destination_path "b.xisf" "/lib"
          [("type", some (.str "MASTER FLAT")), ("camera", some (.str "CAM1")),
           ("optic", some (.str "SCOPE1")), ("date", some (.str "2026-01-27")),
           ("filter", some (.str "L"))]) ∧
    (∀ w : Scalar,
      build_destination_path "b.xisf" "/lib"
          (Datum.setVal
            [("type", some (.str "MASTER FLAT")), ("camera", some (.str "CAM1")),
             ("optic", some (.str "SCOPE1")), ("date", some (.str "2026-01-27")),
             ("filter", some (.str "L"))] NORMALIZED_HEADER_DATE (some w)) =
        .ok (pyNormpath (os_path_join "/lib"
          ([TYPE_MASTER_FLAT, "CAM1"] ++
           specOpticSeg
             [("type", some (.str "MASTER FLAT")), ("camera", some (.str "CAM1")),
              ("optic", some (.str "SCOPE1")), ("date", some (.str "2026-01-27")),
              ("filter", some (.str "L"))] ++
           ["DATE_" ++ w.render,
            fnameFold
              [("type", some (.str "MASTER FLAT")), ("camera", some (.str "CAM1")),
               ("optic", some (.str "SCOPE1")), ("date", some (.str "2026-01-27")),
               ("filter", some (.str "L"))]
              ["filter", "gain", "offset", "settemp", "readoutmode"]
              (camelCase TYPE_MASTER_FLAT) ++ splitextExt "b.xisf"])))) :=
  C5_flat_directory_shape
    [("type", some (.str "MASTER FLAT")), ("camera", some (.str "CAM1")),
     ("optic", some (.str "SCOPE1")), ("date", some (.str "2026-01-27")),
     ("filter", some (.str "L"))]
    "b.xisf" "/lib" "CAM1" (.str "2026-01-27") rfl rfl rfl
    (by intro n h; simp [Datum.getD, NORMALIZED_HEADER_OPTIC] at h)
theorem copyLoop_sum (env : Env) (l : List (String × String)) :
    (copyLoop env l).1 + (copyLoop env l).2 = l.length := by
  induction l with
  | nil => rfl
  | cons p rest ih =>
    obtain ⟨s, d⟩ := p
    simp only [copyLoop]
    split
    · simp only [List.length_cons]
      omega
    · simp only [List.length_cons]
      omega

theorem buildCopyList_len (dd : String) (files : List (String × Datum))
    (cl : List (String × String)) (n : Nat)
    (h : buildCopyList dd files = .ok (cl, n)) :
    files.length = cl.length + n := by
  induction files generalizing cl n with
  | nil =>
    simp [buildCopyList] at h
    obtain ⟨h1, h2⟩ := h
    subst h1
    subst h2
    rfl
  | cons f rest ih =>
    obtain ⟨sf, d⟩ := f
    simp only [buildCopyList] at h
    split at h
    · split at h
      · rename_i l2 n2 hrec
        simp at h
        obtain ⟨h1, h2⟩ := h
        subst h1
        subst h2
        have := ih _ _ hrec
        simp only [List.length_cons]
        omega
      · simp at h
    · split at h
      · rename_i l2 n2 hrec
        simp at h
        obtain ⟨h1, h2⟩ := h
        subst h1
        subst h2
        have := ih _ _ hrec
        simp [List.length_cons]
        omega
      · simp at h
    · split at h
      · rename_i l2 n2 hrec
        simp at h
        obtain ⟨h1, h2⟩ := h
        subst h1
        subst h2
        have := ih _ _ hrec
        simp [List.length_cons]
        omega
      · simp at h
    · simp at h
theorem buildCopyList_error (dd : String) (files : List (String × Datum)) (e : PyErr)
    (h : buildCopyList dd files = .error e) : ∃ m, e = .typeError m := by
  induction files with
  | nil => simp [buildCopyList] at h
  | cons f rest ih =>
    obtain ⟨sf, d⟩ := f
    simp only [buildCopyList] at h
    split at h
    · split at h
      · simp at h
      · rename_i e2 hrec
        simp at h
        subst h
        exact ih hrec
    · split at h
      · simp at h
      · rename_i e2 hrec
        simp at h
        subst h
        exact ih hrec
    · split at h
      · simp at h
      · rename_i e2 hrec
        simp at h
        subst h
        exact ih hrec
    · rename_i e2 hnv hnk hdf
      simp at h
      subst h
      rcases bdp_error_kinds sf dd d e2 hdf with ⟨m, rfl⟩ | ⟨k, rfl⟩ | ⟨m, rfl⟩
      · exact (hnv m rfl).elim
      · exact (hnk k rfl).elim
      · exact ⟨m, rfl⟩
theorem runTypes_frame (env : Env) (dd : String) (no : Bool) :
    ∀ (ts : List String) (stats : Stats) (copies : List (String × String)) (f : Stats)
      (t : String), t ∉ ts → (runTypes env dd no ts stats copies).result = .ok f →
      f t = stats t := by
  intro ts
  induction ts with
  | nil =>
    intro stats copies f t _ h
    simp only [runTypes] at h
    simp at h
    rw [← h]
  | cons t0 rest ih =>
    intro stats copies f t hmem h
    simp only [runTypes] at h
    split at h
    · simp at h
    · rename_i copy_list nskip hcl
      split at h
      · simp at h
      · have ht0 : t ≠ t0 := fun he => hmem (he ▸ List.mem_cons_self _ _)
        have hrec := ih _ _ f t (fun hm => hmem (List.mem_cons_of_mem _ hm)) h
        rw [hrec]
        simp [setStats, ht0]
theorem runTypes_ok_char (env : Env) (dd : String) (no : Bool) :
    ∀ (ts : List String) (stats : Stats) (copies : List (String × String)) (f : Stats),
      ts.Nodup → (runTypes env dd no ts stats copies).result = .ok f →
      ∀ t ∈ ts, ∃ cl n, buildCopyList dd (env.metadata t) = .ok (cl, n) ∧
        f t = ⟨(env.metadata t).length,
               (stats t).copied + (copyLoop env cl).1,
               (stats t).skipped + n + (copyLoop env cl).2⟩ := by
  intro ts
  induction ts with
  | nil =>
    intro stats copies f _ _ t ht
    simp at ht
  | cons t0 rest ih =>
    intro stats copies f hnd h t ht
    simp only [runTypes] at h
    split at h
    · simp at h
    · rename_i copy_list nskip hcl
      split at h
      · simp at h
      · rcases List.mem_cons.mp ht with rfl | hmem
        · have hnotin : t ∉ rest := (List.nodup_cons.mp hnd).1
          have hf := runTypes_frame env dd no rest _ _ f t hnotin h
          refine ⟨copy_list, nskip, hcl, ?_⟩
          rw [hf]
          simp [setStats]
        · have hnd2 := (List.nodup_cons.mp hnd).2
          obtain ⟨cl, n, hcl2, hft⟩ := ih _ _ f hnd2 h t hmem
          have ht0 : t ≠ t0 := by
            rintro rfl
            exact (List.nodup_cons.mp hnd).1 hmem
          refine ⟨cl, n, hcl2, ?_⟩
          rw [hft]
          simp [setStats, ht0]
theorem exceptOk_exists {α : Type} (x : Except PyErr α) (h : exceptOk x = true) :
    ∃ v, x = .ok v := by
  cases x with
  | ok v => exact ⟨v, rfl⟩
  | error e => simp [exceptOk] at h

theorem runTypes_noAbort (env : Env) (dd : String) :
    ∀ (ts : List String) (stats : Stats) (copies : List (String × String)),
      (∀ t ∈ ts, exceptOk (buildCopyList dd (env.metadata t)) = true) →
      (∃ f, (runTypes env dd false ts stats copies).result = .ok f) ∧
      (runTypes env dd false ts stats copies).copies =
        copies ++ (ts.map (planPairs env dd)).flatten := by
  intro ts
  induction ts with
  | nil =>
    intro stats copies _
    exact ⟨⟨stats, rfl⟩, by simp [runTypes]⟩
  | cons t0 rest ih =>
    intro stats copies hall
    obtain ⟨⟨cl, n⟩, hcl⟩ := exceptOk_exists _ (hall t0 (by simp))
    have hpp : planPairs env dd t0 = cl := by
      unfold planPairs
      rw [hcl]
    simp only [runTypes, hcl, Bool.false_and, Bool.false_eq_true, if_false]
    obtain ⟨⟨f, hres⟩, hcop⟩ := ih _ (copies ++ cl)
      (fun t ht => hall t (List.mem_cons_of_mem _ ht))
    refine ⟨⟨f, hres⟩, ?_⟩
    rw [hcop]
    simp [hpp, List.append_assoc]
theorem runTypes_collision (env : Env) (dd : String) :
    ∀ (ts : List String) (stats : Stats) (copies : List (String × String)) (ex : List String),
      (runTypes env dd true ts stats copies).result = .error (.fileExistsError ex) →
      ∃ pre t post, ts = pre ++ t :: post ∧
        exceptOk (buildCopyList dd (env.metadata t)) = true ∧
        ex = _check_for_collisions env (planPairs env dd t) ∧
        ex ≠ [] ∧
        (∀ t2 ∈ pre, exceptOk (buildCopyList dd (env.metadata t2)) = true ∧
          _check_for_collisions env (planPairs env dd t2) = []) ∧
        (runTypes env dd true ts stats copies).copies =
          copies ++ (pre.map (planPairs env dd)).flatten := by
  intro ts
  induction ts with
  | nil =>
    intro stats copies ex h
    simp only [runTypes] at h
    simp at h
  | cons t0 rest ih =>
    intro stats copies ex h
    cases hcl : buildCopyList dd (env.metadata t0) with
    | error e =>
      rw [show runTypes env dd true (t0 :: rest) stats copies = ⟨copies, .error e⟩ by
        simp only [runTypes, hcl]] at h
      simp only at h
      obtain ⟨m, rfl⟩ := buildCopyList_error dd _ e hcl
      simp at h
    | ok pr =>
      obtain ⟨copy_list, nskip⟩ := pr
      by_cases hg : (_check_for_collisions env copy_list).isEmpty = true
      · have hgc : (true && !(_check_for_collisions env copy_list).isEmpty) = false := by
          rw [hg]
          rfl
        have hemp : _check_for_collisions env copy_list = [] := by
          cases hc0 : _check_for_collisions env copy_list with
          | nil => rfl
          | cons a rest2 =>
            rw [hc0] at hg
            simp at hg
        have hstep : runTypes env dd true (t0 :: rest) stats copies =
            runTypes env dd true rest
              (setStats
                (setStats
                  (setStats stats t0
                    { stats t0 with scanned := (env.metadata t0).length })
                  t0
                  { (setStats stats t0
                      { stats t0 with scanned := (env.metadata t0).length }) t0 with
                    skipped := ((setStats stats t0
                      { stats t0 with scanned := (env.metadata t0).length }) t0).skipped
                      + nskip })
                t0
                { (setStats
                    (setStats stats t0
                      { stats t0 with scanned := (env.metadata t0).length })
                    t0
                    { (setStats stats t0
                        { stats t0 with scanned := (env.metadata t0).length }) t0 with
                      skipped := ((setStats stats t0
                        { stats t0 with scanned := (env.metadata t0).length }) t0).skipped
                        + nskip }) t0 with
                  copied := ((setStats
                    (setStats stats t0
                      { stats t0 with scanned := (env.metadata t0).length })
                    t0
                    { (setStats stats t0
                        { stats t0 with scanned := (env.metadata t0).length }) t0 with
                      skipped := ((setStats stats t0
                        { stats t0 with scanned := (env.metadata t0).length }) t0).skipped
                        + nskip }) t0).copied + (copyLoop env copy_list).1,
                  skipped := ((setStats
                    (setStats stats t0
                      { stats t0 with scanned := (env.metadata t0).length })
                    t0
                    { (setStats stats t0
                        { stats t0 with scanned := (env.metadata t0).length }) t0 with
                      skipped := ((setStats stats t0
                        { stats t0 with scanned := (env.metadata t0).length }) t0).skipped
                        + nskip }) t0).skipped + (copyLoop env copy_list).2 })
              (copies ++ copy_list) := by
          simp only [runTypes, hcl, hgc, if_false, Bool.false_eq_true]
        rw [hstep] at h
        obtain ⟨pre, t, post, hts, hok, hex, hne, hpre, hcop⟩ := ih _ _ _ h
        refine ⟨t0 :: pre, t, post, by rw [hts]; rfl, hok, hex, hne, ?_, ?_⟩
        · intro t2 ht2
          rcases List.mem_cons.mp ht2 with rfl | hm
          · refine ⟨by simp [exceptOk, hcl], ?_⟩
            have hpp : planPairs env dd t2 = copy_list := by
              unfold planPairs
              rw [hcl]
            rw [hpp, hemp]
          · exact hpre t2 hm
        · rw [hstep, hcop]
          have hpp : planPairs env dd t0 = copy_list := by
            unfold planPairs
            rw [hcl]
          simp [hpp, List.append_assoc]
      · have hgc : (true && !(_check_for_collisions env copy_list).isEmpty) = true := by
          simp at hg
          simp [hg]
        have hstep : runTypes env dd true (t0 :: rest) stats copies =
            ⟨copies, .error (.fileExistsError (_check_for_collisions env copy_list))⟩ := by
          simp only [runTypes, hcl, hgc, if_true]
        rw [hstep] at h
        simp only at h
        have hex2 : ex = _check_for_collisions env copy_list := by
          simp at h
          exact h.symm
        have hne2 : ex ≠ [] := by
          intro h0
          apply hg
          rw [← hex2, h0]
          rfl
        have hpp : planPairs env dd t0 = copy_list := by
          unfold planPairs
          rw [hcl]
        refine ⟨[], t0, rest, rfl, by simp [exceptOk, hcl], by rw [hpp]; exact hex2, hne2,
          ?_, ?_⟩
        · intro t2 ht2
          simp at ht2
        · rw [hstep]
          simp
/-- Claim C1 as stated is false: with the overwrite guard set and a
dark-frame collision, the run aborts with the collision error, but the bias
file of the frame type processed before the colliding one has already been
copied — the abort does not keep the copy count of the whole run at zero. -/
theorem C1_counterexample :
    isCollisionAbort (copy_calibration_frames collisionEnv "/dest" true) = true ∧
    (copy_calibration_frames collisionEnv "/dest" true).copies =
      [("/src/bias.xisf", "/dest/MASTER BIAS/DWARFIII/masterBias_GAIN_100.xisf")] := by
  constructor
  · rfl
  · rfl

/-- Claim C1 amended: under the overwrite guard, a run that aborts with the
collision error reports exactly the pre-existing planned destinations of the
first colliding frame type (a non-empty list), every earlier frame type was
collision-free, and the performed copies are exactly the planned pairs of the
frame types before the colliding one — no file of the colliding type or of a
later type is copied, while earlier types have already been copied. -/
theorem C1_collision_abort_amended (env : Env) (dd : String) (ex : List String)
    (h : (copy_calibration_frames env dd true).result = .error (.fileExistsError ex)) :
    ∃ pre t post, MASTER_CALIBRATION_TYPES = pre ++ t :: post ∧
      exceptOk (buildCopyList dd (env.metadata t)) = true ∧
      ex = _check_for_collisions env (planPairs env dd t) ∧
      ex ≠ [] ∧
      (∀ t2 ∈ pre, exceptOk (buildCopyList dd (env.metadata t2)) = true ∧
        _check_for_collisions env (planPairs env dd t2) = []) ∧
      (copy_calibration_frames env dd true).copies =
        (pre.map (planPairs env dd)).flatten := by
  have hr := runTypes_collision env dd MASTER_CALIBRATION_TYPES initStats [] ex h
  simpa using hr

/-- Witness for the amended C1 on the concrete collision environment. -/
theorem C1_collision_abort_amended_witness :
    ∃ pre t post, MASTER_CALIBRATION_TYPES = pre ++ t :: post ∧
      exceptOk (buildCopyList "/dest" (collisionEnv.metadata t)) = true ∧
      ["/dest/MASTER DARK/DWARFIII/masterDark_EXPTIME_300.xisf"] =
        _check_for_collisions collisionEnv (planPairs collisionEnv "/dest" t) ∧
      ["/dest/MASTER DARK/DWARFIII/masterDark_EXPTIME_300.xisf"] ≠ ([] : List String) ∧
      (∀ t2 ∈ pre, exceptOk (buildCopyList "/dest" (collisionEnv.metadata t2)) = true ∧
        _check_for_collisions collisionEnv (planPairs collisionEnv "/dest" t2) = []) ∧
      (copy_calibration_frames collisionEnv "/dest" true).copies =
        (pre.map (planPairs collisionEnv "/dest")).flatten :=
  C1_collision_abort_amended collisionEnv "/dest"
    ["/dest/MASTER DARK/DWARFIII/masterDark_EXPTIME_300.xisf"] (by rfl)

/-- Claim C7: per-file failures are local.  When no planning step raises a
fatal (uncaught) exception, a run without the overwrite guard completes,
attempts every planned pair of every frame type, and for each frame type
ends with scanned equal to the metadata count, copied equal to the
successful copies, and skipped equal to the planning skips plus the failed
copies — neither an InvalidMetadata skip nor a copy failure aborts the
batch. -/
theorem C7_per_file_failures_local (env : Env) (dd : String)
    (h : ∀ t ∈ MASTER_CALIBRATION_TYPES,
      exceptOk (buildCopyList dd (env.metadata t)) = true) :
    resultOk (copy_calibration_frames env dd false) = true ∧
    (copy_calibration_frames env dd false).copies =
      (MASTER_CALIBRATION_TYPES.map (planPairs env dd)).flatten ∧
    ∀ t ∈ MASTER_CALIBRATION_TYPES,
      statsAt (copy_calibration_frames env dd false) t =
        ⟨(env.metadata t).length,
         (copyLoop env (planPairs env dd t)).1,
         planSkips env dd t + (copyLoop env (planPairs env dd t)).2⟩ := by
  obtain ⟨⟨f, hres⟩, hcop⟩ := runTypes_noAbort env dd MASTER_CALIBRATION_TYPES initStats [] h
  refine ⟨?_, ?_, ?_⟩
  · unfold copy_calibration_frames resultOk
    simp only [hres]
  · unfold copy_calibration_frames
    rw [hcop]
    simp
  · intro t ht
    obtain ⟨cl, n, hcl, hft⟩ := runTypes_ok_char env dd false MASTER_CALIBRATION_TYPES
      initStats [] f (by decide) hres t ht
    have hpp : planPairs env dd t = cl := by
      unfold planPairs
      rw [hcl]
    have hps : planSkips env dd t = n := by
      unfold planSkips
      rw [hcl]
    unfold copy_calibration_frames statsAt
    simp only [hres, hft, hpp, hps, initStats]
    simp

/-- Witness for C7 on the concrete environment with one invalid-metadata
file and one failing copy. -/
theorem C7_per_file_failures_local_witness :
    resultOk (copy_calibration_frames localFailEnv "/dest" false) = true ∧
    (copy_calibration_frames localFailEnv "/dest" false).copies =
      (MASTER_CALIBRATION_TYPES.map (planPairs localFailEnv "/dest")).flatten ∧
    ∀ t ∈ MASTER_CALIBRATION_TYPES,
      statsAt (copy_calibration_frames localFailEnv "/dest" false) t =
        ⟨(localFailEnv.metadata t).length,
         (copyLoop localFailEnv (planPairs localFailEnv "/dest" t)).1,
         planSkips localFailEnv "/dest" t +
           (copyLoop localFailEnv (planPairs localFailEnv "/dest" t)).2⟩ :=
  C7_per_file_failures_local localFailEnv "/dest" (by decide)

/-- Claim C9: statistics accounting invariant.  For every run that completes
without a fatal error and every frame type, scanned equals the number of
metadata records returned for that type and scanned equals copied plus
skipped. -/
theorem C9_stats_invariant (env : Env) (dd : String) (no : Bool) (t : String)
    (hmem : t ∈ MASTER_CALIBRATION_TYPES)
    (hok : resultOk (copy_calibration_frames env dd no) = true) :
    (statsAt (copy_calibration_frames env dd no) t).scanned = (env.metadata t).length ∧
    (statsAt (copy_calibration_frames env dd no) t).scanned =
      (statsAt (copy_calibration_frames env dd no) t).copied +
        (statsAt (copy_calibration_frames env dd no) t).skipped := by
  cases hres : (copy_calibration_frames env dd no).result with
  | error e =>
    unfold resultOk at hok
    rw [hres] at hok
    simp at hok
  | ok f =>
    unfold copy_calibration_frames at hres
    obtain ⟨cl, n, hcl, hft⟩ := runTypes_ok_char env dd no MASTER_CALIBRATION_TYPES
      initStats [] f (by decide) hres t hmem
    have h1 := buildCopyList_len dd (env.metadata t) cl n hcl
    have h2 := copyLoop_sum env cl
    unfold copy_calibration_frames statsAt
    simp only [hres, hft]
    constructor
    · simp [initStats]
    · simp [initStats]
      omega

/-- Witness for C9 on the concrete environment, for the bias frame type. -/
theorem C9_stats_invariant_witness :
    (statsAt (copy_calibration_frames localFailEnv "/dest" false)
        TYPE_MASTER_BIAS).scanned =
      (localFailEnv.metadata TYPE_MASTER_BIAS).length ∧
    (statsAt (copy_calibration_frames localFailEnv "/dest" false)
        TYPE_MASTER_BIAS).scanned =
      (statsAt (copy_calibration_frames localFailEnv "/dest" false)
          TYPE_MASTER_BIAS).copied +
        (statsAt (copy_calibration_frames localFailEnv "/dest" false)
            TYPE_MASTER_BIAS).skipped :=
  C9_stats_invariant localFailEnv "/dest" false TYPE_MASTER_BIAS (by decide) (by rfl)
end MoveCalibration
